import Mathlib

/-
Verification of the offline-dependency fetcher
(src/图形界面/offlineDependencies.py).

The script is embedded shallowly: the filesystem is a record of existing
directories and of files with their byte contents; the network and the
fallibility of the file write are an environment of oracles; every
side effect (console line, HTTP GET, directory creation, file write) is
recorded in an event trace, in the order the Python statements execute.
-/

namespace OfflineDeps

/-- The observable result of `requests.get(url)`: either a response object
(with `status_code` and `content`), or an exception raised during the
request (transport error: DNS failure, timeout, connection error). -/
structure Resp where
  status_code : Nat
  content : List Nat
deriving DecidableEq, Repr

/-- Outcome of `requests.get`. -/
inductive HttpResult where
  | ok (r : Resp)
  | exn (msg : String)
deriving DecidableEq, Repr

/-- The filesystem state: the set of existing directories and the mapping
from file path to byte contents, both as lists. -/
structure FS where
  dirs : List String
  files : List (String × List Nat)
deriving DecidableEq, Repr

/-- One recorded side effect of the script. -/
inductive Event where
  | log (line : String)
  | getReq (url : String)
  | mkdir (dir : String)
  | writeEv (path : String) (bytes : List Nat)
deriving DecidableEq, Repr

/-- The environment of oracles: `http url` is what `requests.get(url)`
does, and `writeErr path` is `some msg` when `open(path, "wb")` /
`f.write` would raise an `OSError` with message `msg` (and `none` when
the write succeeds). -/
structure Env where
  http : String → HttpResult
  writeErr : String → Option String

/-- Embedding of `os.path.exists(p)`: true when `p` is an existing
directory or an existing file. -/
def pathExists (fs : FS) (p : String) : Bool :=
  fs.dirs.any (fun d => d == p) || fs.files.any (fun q => q.1 == p)

/-- Writing `bytes` to file `p` in binary mode: a full overwrite of any
previous contents. -/
def setFile (fs : FS) (p : String) (bytes : List Nat) : FS :=
  { fs with files := (p, bytes) :: fs.files.filter (fun q => q.1 != p) }

/-- Contents of the file at `p`, when it exists. -/
def getFile (fs : FS) (p : String) : Option (List Nat) :=
  (fs.files.find? (fun q => q.1 == p)).map Prod.snd

/-- The static `LIBRARIES` dict of the script, in definition order. -/
def LIBRARIES : List (String × String) := [
  ("react.js", "https://unpkg.com/react@18/umd/react.development.js"),
  ("react-dom.js", "https://unpkg.com/react-dom@18/umd/react-dom.development.js"),
  ("babel.js", "https://unpkg.com/@babel/standalone/babel.min.js"),
  ("tailwind.js", "https://cdn.tailwindcss.com")]

/-- Lines 15-17 of the script: create the `libs` directory when it does
not exist, logging the creation. -/
def ensure_directory (fs : FS) : FS × List Event :=
  if pathExists fs "libs" then (fs, [])
  else ({ fs with dirs := "libs" :: fs.dirs },
        [Event.mkdir "libs", Event.log "Created directory: libs/"])

/-- The body of the `for filename, url in LIBRARIES.items()` loop
(lines 22-37): skip when the target path exists, otherwise GET the url
and either write the body (status 200, write succeeds), or log the
failure (non-200 status), or log the caught exception (transport error
or write error). Returns the new filesystem and the per-entry trace. -/
def processEntry (env : Env) (fs : FS) (filename url : String) :
    FS × List Event :=
  let filepath := "libs/" ++ filename
  if pathExists fs filepath then
    (fs, [Event.log (filename ++ " already exists. Skipping.")])
  else
    match env.http url with
    | HttpResult.exn msg =>
        (fs, [Event.log ("Downloading " ++ filename ++ "..."),
              Event.getReq url,
              Event.log ("Error downloading " ++ filename ++ ": " ++ msg)])
    | HttpResult.ok r =>
        if r.status_code == 200 then
          match env.writeErr filepath with
          | some msg =>
              (fs, [Event.log ("Downloading " ++ filename ++ "..."),
                    Event.getReq url,
                    Event.log ("Error downloading " ++ filename ++ ": " ++ msg)])
          | none =>
              (setFile fs filepath r.content,
               [Event.log ("Downloading " ++ filename ++ "..."),
                Event.getReq url,
                Event.writeEv filepath r.content,
                Event.log ("Saved " ++ filename)])
        else
          (fs, [Event.log ("Downloading " ++ filename ++ "..."),
                Event.getReq url,
                Event.log ("Failed to download " ++ filename ++ ": Status "
                           ++ toString r.status_code)])

/-- The loop itself: entries processed strictly one at a time, in list
order, each starting from the filesystem the previous one left. -/
def processEntries (env : Env) (fs : FS) :
    List (String × String) → FS × List Event
  | [] => (fs, [])
  | e :: rest =>
      let p := processEntry env fs e.1 e.2
      let q := processEntries env p.1 rest
      (q.1, p.2 ++ q.2)

/-- The opening console line (line 19 of the script). -/
def startLine : String := "Starting download of dependencies..."

/-- The closing console line (line 39 of the script). -/
def closingLine : String :=
  "\nDependencies ready! You can now open " ++ "\x27index.html\x27 offline."

/-- The whole `download_libs()` function: ensure the directory, print the
start line, run the loop over `LIBRARIES`, print the closing line. -/
def download_libs (env : Env) (fs : FS) : FS × List Event :=
  let g := ensure_directory fs
  let pr := processEntries env g.1 LIBRARIES
  (pr.1, g.2 ++ [Event.log startLine] ++ pr.2 ++ [Event.log closingLine])

/-- The `if __name__ == "__main__"` entry point: runs `download_libs` and
terminates; the process exit code is the implicit 0. -/
def run_main (env : Env) (fs : FS) : (FS × List Event) × Nat :=
  (download_libs env fs, 0)

/-- Number of HTTP GET requests recorded in a trace. -/
def countGet (tr : List Event) : Nat :=
  (tr.filter (fun ev => match ev with
    | Event.getReq _ => true
    | _ => false)).length

/-- An entry whose fetch, were it attempted, succeeds: the GET returns
status 200 and the file write does not raise. -/
def netOk (env : Env) (filename url : String) : Prop :=
  ∃ r, env.http url = HttpResult.ok r ∧ r.status_code = 200 ∧
    env.writeErr ("libs/" ++ filename) = none

/-- The trace shows the entry was handled: it holds either the skip line
or the download line for this filename. -/
def entryLogged (tr : List Event) (filename : String) : Prop :=
  Event.log (filename ++ " already exists. Skipping.") ∈ tr ∨
  Event.log ("Downloading " ++ filename ++ "...") ∈ tr

/-- A network where every request raises a transport error. -/
def envDown : Env := ⟨fun _ => HttpResult.exn "connection refused", fun _ => none⟩

/-- A network where every request returns 200 with body `[7, 8]` and
every write succeeds. -/
def envOk : Env := ⟨fun _ => HttpResult.ok ⟨200, [7, 8]⟩, fun _ => none⟩

/-- A network where every request returns status 404. -/
def env404 : Env := ⟨fun _ => HttpResult.ok ⟨404, []⟩, fun _ => none⟩

/-- A network where requests succeed but every file write raises. -/
def envWErr : Env :=
  ⟨fun _ => HttpResult.ok ⟨200, [7]⟩, fun _ => some "No space left on device"⟩

/-- The empty filesystem. -/
def fs0 : FS := ⟨[], []⟩

/-- A filesystem where `libs/react.js` already exists with contents
`[1, 2, 3]`. -/
def fsPre : FS := ⟨["libs"], [("libs/react.js", [1, 2, 3])]⟩

/-- A mixed network: the react.js URL answers 200 with body `[7, 8]`,
every other URL answers 404; writes succeed. -/
def envMixed : Env :=
  ⟨fun u =>
    if u == "https://unpkg.com/react@18/umd/react.development.js"
    then HttpResult.ok ⟨200, [7, 8]⟩ else HttpResult.ok ⟨404, []⟩,
   fun _ => none⟩

theorem getFile_setFile (fs : FS) (p : String) (bytes : List Nat) :
    getFile (setFile fs p bytes) p = some bytes := by
  simp [getFile, setFile]

/-- C1: when the target file (the destination directory joined with the
entry name) already exists at the time the entry is processed, the entry
issues no HTTP GET, leaves the filesystem (hence the existing file's
contents) unchanged, and logs only the already-exists line. -/
theorem c1_skip_if_present (env : Env) (fs : FS) (filename url : String)
    (h : pathExists fs ("libs/" ++ filename) = true) :
    countGet (processEntry env fs filename url).2 = 0 ∧
    (processEntry env fs filename url).1 = fs ∧
    (processEntry env fs filename url).2 =
      [Event.log (filename ++ " already exists. Skipping.")] := by
  simp [processEntry, h, countGet]

theorem c1_skip_if_present_witness :
    pathExists fsPre ("libs/" ++ "react.js") = true ∧
    (countGet (processEntry envDown fsPre "react.js" "u").2 = 0 ∧
     (processEntry envDown fsPre "react.js" "u").1 = fsPre ∧
     (processEntry envDown fsPre "react.js" "u").2 =
       [Event.log ("react.js" ++ " already exists. Skipping.")]) :=
  ⟨by decide, c1_skip_if_present envDown fsPre "react.js" "u" (by decide)⟩

/-- C2: when the target file is absent and the GET returns status 200
(and the binary write raises nothing), the file written at the target
path holds exactly the response body bytes, as a full overwrite in
binary mode, and the success line is logged. -/
theorem c2_success_writes_body (env : Env) (fs : FS) (filename url : String)
    (body : List Nat)
    (habs : pathExists fs ("libs/" ++ filename) = false)
    (hhttp : env.http url = HttpResult.ok ⟨200, body⟩)
    (hw : env.writeErr ("libs/" ++ filename) = none) :
    processEntry env fs filename url =
      (setFile fs ("libs/" ++ filename) body,
       [Event.log ("Downloading " ++ filename ++ "..."), Event.getReq url,
        Event.writeEv ("libs/" ++ filename) body,
        Event.log ("Saved " ++ filename)]) ∧
    getFile (processEntry env fs filename url).1 ("libs/" ++ filename) =
      some body := by
  have h1 : processEntry env fs filename url =
      (setFile fs ("libs/" ++ filename) body,
       [Event.log ("Downloading " ++ filename ++ "..."), Event.getReq url,
        Event.writeEv ("libs/" ++ filename) body,
        Event.log ("Saved " ++ filename)]) := by
    simp [processEntry, habs, hhttp, hw]
  exact ⟨h1, by rw [h1]; exact getFile_setFile fs ("libs/" ++ filename) body⟩

theorem c2_success_writes_body_witness :
    pathExists fs0 ("libs/" ++ "react.js") = false ∧
    getFile (processEntry envOk fs0 "react.js" "u").1 ("libs/" ++ "react.js") =
      some [7, 8] :=
  ⟨by decide,
   (c2_success_writes_body envOk fs0 "react.js" "u" [7, 8]
     (by decide) rfl rfl).2⟩

/-- C4: when the target file is absent and the GET returns a status other
than 200, the entry leaves the filesystem unchanged (no file is created
at the target path), logs the failure line including the status code,
and the loop continues with the next entries: the trace of the batch
starting at this entry is this entry's trace followed by the rest's, and
the final filesystem is the one the rest produces from the unchanged
filesystem. (The embedding is a total function, so no exception
propagates out of the batch.) -/
theorem c4_non200_no_file (env : Env) (fs : FS) (filename url : String)
    (r : Resp) (rest : List (String × String))
    (habs : pathExists fs ("libs/" ++ filename) = false)
    (hhttp : env.http url = HttpResult.ok r)
    (hst : r.status_code ≠ 200) :
    processEntry env fs filename url =
      (fs, [Event.log ("Downloading " ++ filename ++ "..."), Event.getReq url,
            Event.log ("Failed to download " ++ filename ++ ": Status "
                       ++ toString r.status_code)]) ∧
    processEntries env fs ((filename, url) :: rest) =
      ((processEntries env fs rest).1,
       (processEntry env fs filename url).2 ++
         (processEntries env fs rest).2) := by
  have hb : (r.status_code == 200) = false := by
    simpa using hst
  have h1 : processEntry env fs filename url =
      (fs, [Event.log ("Downloading " ++ filename ++ "..."), Event.getReq url,
            Event.log ("Failed to download " ++ filename ++ ": Status "
                       ++ toString r.status_code)]) := by
    simp [processEntry, habs, hhttp, hb]
  refine ⟨h1, ?_⟩
  have h2 : (processEntry env fs filename url).1 = fs := by rw [h1]
  simp [processEntries, h2]

theorem c4_non200_no_file_witness :
    pathExists fs0 ("libs/" ++ "react.js") = false ∧
    (404 : Nat) ≠ 200 ∧
    processEntry env404 fs0 "react.js" "u" =
      (fs0, [Event.log ("Downloading " ++ "react.js" ++ "..."),
             Event.getReq "u",
             Event.log ("Failed to download " ++ "react.js" ++ ": Status "
                        ++ toString (404 : Nat))]) :=
  ⟨by decide, by decide,
   (c4_non200_no_file env404 fs0 "react.js" "u" ⟨404, []⟩ []
     (by decide) rfl (by decide)).1⟩

/-- C5: when the GET raises a transport-level exception, the exception is
caught, its message is logged on the error line, the filesystem is
unchanged (no file is created at the target path), and the loop
continues with the subsequent entries. -/
theorem c5_transport_error_caught (env : Env) (fs : FS)
    (filename url msg : String) (rest : List (String × String))
    (habs : pathExists fs ("libs/" ++ filename) = false)
    (hhttp : env.http url = HttpResult.exn msg) :
    processEntry env fs filename url =
      (fs, [Event.log ("Downloading " ++ filename ++ "..."), Event.getReq url,
            Event.log ("Error downloading " ++ filename ++ ": " ++ msg)]) ∧
    processEntries env fs ((filename, url) :: rest) =
      ((processEntries env fs rest).1,
       (processEntry env fs filename url).2 ++
         (processEntries env fs rest).2) := by
  have h1 : processEntry env fs filename url =
      (fs, [Event.log ("Downloading " ++ filename ++ "..."), Event.getReq url,
            Event.log ("Error downloading " ++ filename ++ ": " ++ msg)]) := by
    simp [processEntry, habs, hhttp]
  refine ⟨h1, ?_⟩
  have h2 : (processEntry env fs filename url).1 = fs := by rw [h1]
  simp [processEntries, h2]

theorem c5_transport_error_caught_witness :
    pathExists fs0 ("libs/" ++ "react.js") = false ∧
    processEntry envDown fs0 "react.js" "u" =
      (fs0, [Event.log ("Downloading " ++ "react.js" ++ "..."),
             Event.getReq "u",
             Event.log ("Error downloading " ++ "react.js" ++ ": "
                        ++ "connection refused")]) :=
  ⟨by decide,
   (c5_transport_error_caught envDown fs0 "react.js" "u"
     "connection refused" [] (by decide) rfl).1⟩

/-- C10: the try/except spans the file open and write as well as the
request: when the GET returns 200 but opening or writing the target file
raises, that exception too is caught and logged with the
error-downloading line, and the batch continues with the remaining
entries. -/
theorem c10_write_error_caught (env : Env) (fs : FS)
    (filename url msg : String) (body : List Nat)
    (rest : List (String × String))
    (habs : pathExists fs ("libs/" ++ filename) = false)
    (hhttp : env.http url = HttpResult.ok ⟨200, body⟩)
    (hw : env.writeErr ("libs/" ++ filename) = some msg) :
    processEntry env fs filename url =
      (fs, [Event.log ("Downloading " ++ filename ++ "..."), Event.getReq url,
            Event.log ("Error downloading " ++ filename ++ ": " ++ msg)]) ∧
    processEntries env fs ((filename, url) :: rest) =
      ((processEntries env fs rest).1,
       (processEntry env fs filename url).2 ++
         (processEntries env fs rest).2) := by
  have h1 : processEntry env fs filename url =
      (fs, [Event.log ("Downloading " ++ filename ++ "..."), Event.getReq url,
            Event.log ("Error downloading " ++ filename ++ ": " ++ msg)]) := by
    simp [processEntry, habs, hhttp, hw]
  refine ⟨h1, ?_⟩
  have h2 : (processEntry env fs filename url).1 = fs := by rw [h1]
  simp [processEntries, h2]

theorem c10_write_error_caught_witness :
    pathExists fs0 ("libs/" ++ "react.js") = false ∧
    processEntry envWErr fs0 "react.js" "u" =
      (fs0, [Event.log ("Downloading " ++ "react.js" ++ "..."),
             Event.getReq "u",
             Event.log ("Error downloading " ++ "react.js" ++ ": "
                        ++ "No space left on device")]) :=
  ⟨by decide,
   (c10_write_error_caught envWErr fs0 "react.js" "u"
     "No space left on device" [7] [] (by decide) rfl rfl).1⟩

theorem pathExists_setFile_self (fs : FS) (p : String) (c : List Nat) :
    pathExists (setFile fs p c) p = true := by
  simp [pathExists, setFile]

theorem pathExists_setFile_mono (fs : FS) (p q : String) (c : List Nat)
    (h : pathExists fs q = true) :
    pathExists (setFile fs p c) q = true := by
  simp only [pathExists, setFile, Bool.or_eq_true, List.any_eq_true] at h ⊢
  rcases h with hd | ⟨x, hx, hxq⟩
  · exact Or.inl hd
  · right
    by_cases hxp : x.1 = p
    · refine ⟨(p, c), List.mem_cons_self _ _, ?_⟩
      simpa [← hxp] using hxq
    · refine ⟨x, List.mem_cons_of_mem _ ?_, hxq⟩
      rw [List.mem_filter]
      exact ⟨hx, by simp [hxp]⟩

theorem pathExists_ensure_mono (fs : FS) (q : String)
    (h : pathExists fs q = true) :
    pathExists (ensure_directory fs).1 q = true := by
  unfold ensure_directory
  split
  · exact h
  · simp only [pathExists, Bool.or_eq_true, List.any_eq_true] at h ⊢
    rcases h with ⟨d, hd, hdq⟩ | hf
    · exact Or.inl ⟨d, List.mem_cons_of_mem _ hd, hdq⟩
    · exact Or.inr hf

theorem pathExists_processEntry_mono (env : Env) (fs : FS)
    (filename url q : String) (h : pathExists fs q = true) :
    pathExists (processEntry env fs filename url).1 q = true := by
  simp only [processEntry]
  split
  · exact h
  · split
    · exact h
    · split
      · split
        · exact h
        · exact pathExists_setFile_mono _ _ _ _ h
      · exact h

theorem pathExists_processEntries_mono (env : Env)
    (es : List (String × String)) :
    ∀ (fs : FS) (q : String), pathExists fs q = true →
      pathExists (processEntries env fs es).1 q = true := by
  induction es with
  | nil => intro fs q h; simpa [processEntries] using h
  | cons e rest ih =>
      intro fs q h
      simp only [processEntries]
      exact ih _ _ (pathExists_processEntry_mono _ _ _ _ _ h)

theorem processEntry_establishes (env : Env) (fs : FS) (filename url : String)
    (h : pathExists fs ("libs/" ++ filename) = true ∨ netOk env filename url) :
    pathExists (processEntry env fs filename url).1 ("libs/" ++ filename)
      = true := by
  by_cases hex : pathExists fs ("libs/" ++ filename) = true
  · exact pathExists_processEntry_mono _ _ _ _ _ hex
  · rcases h with h | ⟨r, hh, hst, hw⟩
    · exact absurd h hex
    · have hex' : pathExists fs ("libs/" ++ filename) = false := by
        simpa using hex
      have hb : (r.status_code == 200) = true := by simp [hst]
      simp [processEntry, hex', hh, hb, hw, pathExists_setFile_self]

theorem processEntries_establishes (env : Env) (filename url : String)
    (es : List (String × String)) :
    ∀ fs : FS, (filename, url) ∈ es →
      (pathExists fs ("libs/" ++ filename) = true ∨ netOk env filename url) →
      pathExists (processEntries env fs es).1 ("libs/" ++ filename) = true := by
  induction es with
  | nil => intro fs hmem; exact absurd hmem (List.not_mem_nil _)
  | cons e rest ih =>
      intro fs hmem h
      simp only [processEntries]
      rcases List.mem_cons.mp hmem with he | hmem'
      · have h1 : pathExists (processEntry env fs e.1 e.2).1
            ("libs/" ++ filename) = true := by
          rw [← he]
          exact processEntry_establishes env fs filename url h
        exact pathExists_processEntries_mono env rest _ _ h1
      · apply ih _ hmem'
        rcases h with h | h
        · exact Or.inl (pathExists_processEntry_mono _ _ _ _ _ h)
        · exact Or.inr h

theorem download_libs_establishes (env : Env) (fs : FS) (filename url : String)
    (hmem : (filename, url) ∈ LIBRARIES)
    (h : pathExists fs ("libs/" ++ filename) = true ∨ netOk env filename url) :
    pathExists (download_libs env fs).1 ("libs/" ++ filename) = true := by
  simp only [download_libs]
  apply processEntries_establishes env filename url LIBRARIES _ hmem
  rcases h with h | h
  · exact Or.inl (pathExists_ensure_mono fs _ h)
  · exact Or.inr h

/-- C3: after a run of `download_libs`, every Library Entry whose fetch did
not fail — its target file pre-existed (so it was skipped), or its GET
returns 200 and the write raises nothing — has a file with its name in
the `libs` destination directory. -/
theorem c3_file_exists_unless_failed (env : Env) (fs : FS)
    (filename url : String)
    (hmem : (filename, url) ∈ LIBRARIES)
    (h : pathExists fs ("libs/" ++ filename) = true ∨ netOk env filename url) :
    pathExists (download_libs env fs).1 ("libs/" ++ filename) = true :=
  download_libs_establishes env fs filename url hmem h

theorem c3_file_exists_unless_failed_witness :
    ("react.js", "https://unpkg.com/react@18/umd/react.development.js")
      ∈ LIBRARIES ∧
    pathExists (download_libs envOk fs0).1 ("libs/" ++ "react.js") = true :=
  ⟨by decide,
   c3_file_exists_unless_failed envOk fs0 "react.js"
     "https://unpkg.com/react@18/umd/react.development.js" (by decide)
     (Or.inr ⟨⟨200, [7, 8]⟩, rfl, rfl, rfl⟩)⟩

/-- C7: the ensure-directory step always leaves the `libs` directory in
existence; running it again on its result is a no-op with no effects (so
it is idempotent and raises nothing on pre-existence); when `libs` was
absent it is created with a creation log, and when `libs` already
existed the step changes nothing and logs nothing. -/
theorem c7_ensure_directory_idempotent (fs : FS) :
    pathExists (ensure_directory fs).1 "libs" = true ∧
    ensure_directory (ensure_directory fs).1 = ((ensure_directory fs).1, []) ∧
    (pathExists fs "libs" = false →
      (ensure_directory fs).2 =
        [Event.mkdir "libs", Event.log "Created directory: libs/"]) ∧
    (pathExists fs "libs" = true → ensure_directory fs = (fs, [])) := by
  have key : ∀ g : FS, pathExists g "libs" = true → ensure_directory g = (g, []) := by
    intro g hg
    simp [ensure_directory, hg]
  have hex : pathExists (ensure_directory fs).1 "libs" = true := by
    by_cases h : pathExists fs "libs" = true
    · simp [ensure_directory, h]
    · have h' : pathExists fs "libs" = false := by simpa using h
      have h1 : (ensure_directory fs).1 = { fs with dirs := "libs" :: fs.dirs } := by
        simp [ensure_directory, h']
      rw [h1]
      simp [pathExists]
  refine ⟨hex, key _ hex, ?_, key fs⟩
  intro h
  simp [ensure_directory, h]

theorem c7_ensure_directory_idempotent_witness :
    pathExists fs0 "libs" = false ∧
    pathExists (ensure_directory fs0).1 "libs" = true ∧
    ensure_directory (ensure_directory fs0).1 = ((ensure_directory fs0).1, []) ∧
    (ensure_directory fs0).2 =
      [Event.mkdir "libs", Event.log "Created directory: libs/"] :=
  ⟨by decide, (c7_ensure_directory_idempotent fs0).1,
   (c7_ensure_directory_idempotent fs0).2.1,
   (c7_ensure_directory_idempotent fs0).2.2.1 (by decide)⟩

/-- C9: the trace of a whole run is the ensure-directory trace, the start
line, then the four entries' traces concatenated in the definition order
of the mapping — react.js, react-dom.js, babel.js, tailwind.js — each
processed from the filesystem the previous entry left, and finally the
closing line: every effect of an earlier entry precedes every effect of
a later one. -/
theorem c9_sequential_definition_order (env : Env) (fs : FS) :
    (download_libs env fs).2 =
      (ensure_directory fs).2 ++ [Event.log startLine] ++
      (let g := (ensure_directory fs).1
       let p1 := processEntry env g "react.js"
         "https://unpkg.com/react@18/umd/react.development.js"
       let p2 := processEntry env p1.1 "react-dom.js"
         "https://unpkg.com/react-dom@18/umd/react-dom.development.js"
       let p3 := processEntry env p2.1 "babel.js"
         "https://unpkg.com/@babel/standalone/babel.min.js"
       let p4 := processEntry env p3.1 "tailwind.js"
         "https://cdn.tailwindcss.com"
       p1.2 ++ p2.2 ++ p3.2 ++ p4.2) ++
      [Event.log closingLine] := by
  simp [download_libs, processEntries, LIBRARIES, List.append_assoc]

theorem processEntry_logs (env : Env) (fs : FS) (filename url : String) :
    entryLogged (processEntry env fs filename url).2 filename := by
  unfold entryLogged
  by_cases h : pathExists fs ("libs/" ++ filename) = true
  · left
    simp [processEntry, h]
  · right
    have h' : pathExists fs ("libs/" ++ filename) = false := by simpa using h
    cases hh : env.http url with
    | exn msg => simp [processEntry, h', hh]
    | ok r =>
        by_cases hs : (r.status_code == 200) = true
        · cases hw : env.writeErr ("libs/" ++ filename) with
          | none => simp [processEntry, h', hh, hs, hw]
          | some m => simp [processEntry, h', hh, hs, hw]
        · have hs' : (r.status_code == 200) = false := by simpa using hs
          simp [processEntry, h', hh, hs']

theorem processEntries_logs (env : Env) (filename url : String)
    (es : List (String × String)) :
    ∀ fs : FS, (filename, url) ∈ es →
      entryLogged (processEntries env fs es).2 filename := by
  induction es with
  | nil => intro fs hmem; exact absurd hmem (List.not_mem_nil _)
  | cons e rest ih =>
      intro fs hmem
      simp only [processEntries]
      rcases List.mem_cons.mp hmem with he | hmem'
      · have h1 : entryLogged (processEntry env fs e.1 e.2).2 filename := by
          rw [← he]
          exact processEntry_logs env fs filename url
        rcases h1 with h1 | h1
        · exact Or.inl (List.mem_append_left _ h1)
        · exact Or.inr (List.mem_append_left _ h1)
      · have h1 := ih (processEntry env fs e.1 e.2).1 hmem'
        rcases h1 with h1 | h1
        · exact Or.inl (List.mem_append_right _ h1)
        · exact Or.inr (List.mem_append_right _ h1)

/-- C6: for every environment (any combination of skips, HTTP errors,
transport errors, write errors and successes) the run is a total
function that processes every entry of the mapping — the trace holds a
skip line or a download line for each of them — the last recorded effect
is the closing console line, and the entry point returns the implicit
exit code 0. -/
theorem c6_batch_always_completes (env : Env) (fs : FS) :
    (download_libs env fs).2.getLast? = some (Event.log closingLine) ∧
    (run_main env fs).2 = 0 ∧
    (∀ filename url, (filename, url) ∈ LIBRARIES →
      entryLogged (download_libs env fs).2 filename) := by
  refine ⟨?_, rfl, ?_⟩
  · show (((ensure_directory fs).2 ++ [Event.log startLine] ++
        (processEntries env (ensure_directory fs).1 LIBRARIES).2) ++
        [Event.log closingLine]).getLast? = some (Event.log closingLine)
    exact List.getLast?_concat _
  · intro filename url hmem
    have h1 := processEntries_logs env filename url LIBRARIES
      (ensure_directory fs).1 hmem
    simp only [download_libs]
    rcases h1 with h1 | h1
    · exact Or.inl (by
        refine List.mem_append_left _ ?_
        exact List.mem_append_right _ h1)
    · exact Or.inr (by
        refine List.mem_append_left _ ?_
        exact List.mem_append_right _ h1)

theorem c6_batch_always_completes_witness :
    (download_libs env404 fs0).2.getLast? = some (Event.log closingLine) ∧
    (run_main env404 fs0).2 = 0 ∧
    (("react.js", "https://unpkg.com/react@18/umd/react.development.js")
        ∈ LIBRARIES ∧
      entryLogged (download_libs env404 fs0).2 "react.js") :=
  ⟨(c6_batch_always_completes env404 fs0).1,
   (c6_batch_always_completes env404 fs0).2.1,
   by decide,
   (c6_batch_always_completes env404 fs0).2.2 "react.js"
     "https://unpkg.com/react@18/umd/react.development.js" (by decide)⟩

theorem ensure_no_getReq (fs : FS) (url : String) :
    Event.getReq url ∉ (ensure_directory fs).2 := by
  unfold ensure_directory
  split <;> simp

theorem processEntry_getReq (env : Env) (fs : FS) (filename url u : String)
    (h : Event.getReq u ∈ (processEntry env fs filename url).2) : u = url := by
  by_cases hex : pathExists fs ("libs/" ++ filename) = true
  · simp [processEntry, hex] at h
  · have hex' : pathExists fs ("libs/" ++ filename) = false := by simpa using hex
    cases hh : env.http url with
    | exn msg => simpa [processEntry, hex', hh] using h
    | ok r =>
        by_cases hs : (r.status_code == 200) = true
        · cases hw : env.writeErr ("libs/" ++ filename) with
          | none => simpa [processEntry, hex', hh, hs, hw] using h
          | some m => simpa [processEntry, hex', hh, hs, hw] using h
        · have hs' : (r.status_code == 200) = false := by simpa using hs
          simpa [processEntry, hex', hh, hs'] using h

theorem processEntries_no_getReq_of_exists (env : Env) (url p : String)
    (es : List (String × String)) :
    ∀ fs : FS, pathExists fs p = true →
      (∀ e ∈ es, e.2 = url → "libs/" ++ e.1 = p) →
      Event.getReq url ∉ (processEntries env fs es).2 := by
  induction es with
  | nil => intro fs _ _ h; simp [processEntries] at h
  | cons e rest ih =>
      intro fs hp hdet hmem
      simp only [processEntries, List.mem_append] at hmem
      rcases hmem with hmem | hmem
      · have hu : url = e.2 := processEntry_getReq env fs e.1 e.2 url hmem
        have hpath : "libs/" ++ e.1 = p :=
          hdet e (List.mem_cons_self _ _) hu.symm
        have hpe : pathExists fs ("libs/" ++ e.1) = true := by
          rw [hpath]; exact hp
        simp [processEntry, hpe] at hmem
      · exact ih (processEntry env fs e.1 e.2).1
          (pathExists_processEntry_mono _ _ _ _ _ hp)
          (fun x hx hxu => hdet x (List.mem_cons_of_mem _ hx) hxu) hmem

theorem LIBRARIES_url_determines (filename url : String)
    (hmem : (filename, url) ∈ LIBRARIES) :
    ∀ e ∈ LIBRARIES, e.2 = url → "libs/" ++ e.1 = "libs/" ++ filename := by
  intro e he hurl
  simp only [LIBRARIES, List.mem_cons, List.not_mem_nil, or_false,
    Prod.mk.injEq] at hmem he
  rcases hmem with ⟨rfl, rfl⟩ | ⟨rfl, rfl⟩ | ⟨rfl, rfl⟩ | ⟨rfl, rfl⟩ <;>
    rcases he with rfl | rfl | rfl | rfl <;>
    first
      | rfl
      | exact absurd hurl (by decide)

/-- C8 amended: running the fetch operation twice in succession, with no
files removed between the runs, performs zero network calls on the
second run for every entry that pre-existed before the first run or
succeeded on it (its GET returned 200 and its write raised nothing):
the second run's trace holds no GET request for that entry's URL. -/
theorem c8_second_run_no_get_for_ok_entry (env : Env) (fs : FS)
    (filename url : String)
    (hmem : (filename, url) ∈ LIBRARIES)
    (h : pathExists fs ("libs/" ++ filename) = true ∨ netOk env filename url) :
    Event.getReq url ∉ (download_libs env (download_libs env fs).1).2 := by
  have h1 : pathExists (download_libs env fs).1 ("libs/" ++ filename) = true :=
    download_libs_establishes env fs filename url hmem h
  have h2 : pathExists (ensure_directory (download_libs env fs).1).1
      ("libs/" ++ filename) = true :=
    pathExists_ensure_mono _ _ h1
  have hmain := processEntries_no_getReq_of_exists env url
    ("libs/" ++ filename) LIBRARIES _ h2
    (LIBRARIES_url_determines filename url hmem)
  have hsplit : (download_libs env (download_libs env fs).1).2 =
      (ensure_directory (download_libs env fs).1).2 ++ [Event.log startLine] ++
      (processEntries env (ensure_directory (download_libs env fs).1).1
        LIBRARIES).2 ++ [Event.log closingLine] := rfl
  rw [hsplit]
  intro hmemEv
  simp only [List.mem_append] at hmemEv
  rcases hmemEv with ((hA | hB) | hC) | hD
  · exact ensure_no_getReq _ _ hA
  · simp at hB
  · exact hmain hC
  · simp at hD

theorem c8_second_run_no_get_for_ok_entry_witness :
    ("react.js", "https://unpkg.com/react@18/umd/react.development.js")
      ∈ LIBRARIES ∧
    Event.getReq "https://unpkg.com/react@18/umd/react.development.js" ∉
      (download_libs envMixed (download_libs envMixed fs0).1).2 :=
  ⟨by decide,
   c8_second_run_no_get_for_ok_entry envMixed fs0 "react.js"
     "https://unpkg.com/react@18/umd/react.development.js" (by decide)
     (Or.inr ⟨⟨200, [7, 8]⟩, by decide, rfl, rfl⟩)⟩

/-- C8 counterexample: with a network that answers every GET with status
404 and an initially empty filesystem, the first run creates no files,
so the second run issues GET requests again — the claim that the second
run performs zero network calls for every entry, not only for those that
succeeded on the first run, is false on this code. -/
theorem c8_counterexample_failed_entries_refetch :
    ¬ countGet (download_libs env404 (download_libs env404 fs0).1).2 = 0 := by
  decide

end OfflineDeps
